import Mathlib

/-!
Verification of tui-dev: streaming chat client, conversation session and
message store.

A shallow embedding of the Go sources

* `go/ollama/ollama.go`  (the chat-completion client and its stream loop),
* `go/storage/sqlite.go` (the `messages` table and its queries),
* `go/ui/ui.go`, `go/ui/crud.go` (the handlers that `RunUI` installs),
* `go/ui/bubble.go` (`wrapText` and `createBubble`),

followed by the properties proved about them.

Everything outside the process (the HTTP exchange, the JSON decoder reading
the response body, the clock, the outcome of a database call) is an explicit
input of the function that consumes it.  Logging has no effect on any value
and is left out.
-/

namespace Ollama

/-- Type `ChatMessage` of `ollama.go`.  `ToolCalls` is never written by the program
and is not represented. -/
structure ChatMessage where
  Role : String
  Content : String
  Images : List String
deriving DecidableEq, Repr

/-- Type `ChatRequest` of `ollama.go`, restricted to the fields the program sets
(`Options`, `Format` and `KeepAlive` only shape the bytes that are sent). -/
structure ChatRequest where
  Model : String
  Messages : List ChatMessage
  Stream : Bool
deriving DecidableEq, Repr

/-- Type `ChatResponse` of `ollama.go`: the shape of every streamed fragment and of
the aggregated reply. -/
structure ChatResponse where
  Model : String
  CreatedAt : String
  Message : ChatMessage
  Done : Bool
deriving DecidableEq, Repr

/-- One call of `decoder.Decode(&chunk)` that did not hit `io.EOF`: either a
fragment that parsed into a `ChatResponse`, or a decode failure. -/
inductive Decoded where
  | fragment (chunk : ChatResponse)
  | malformed (err : String)
deriving DecidableEq, Repr

/-- What the outside world does with one request: `json.Marshal` fails, the
HTTP `Post` fails, or a response body arrives.  The body is the list of
results `decoder.Decode` yields until `io.EOF`. -/
inductive Exchange where
  | marshalFails (err : String)
  | postFails (err : String)
  | body (stream : List Decoded)
deriving DecidableEq, Repr

/-- The errors `GenerateChatCompletion` can return, one constructor per
`return nil, err` site. -/
inductive ChatError where
  | marshal (err : String)
  | transport (err : String)
  | decode (err : String)
  | emptyResponse
deriving DecidableEq, Repr

/-- The text of `err.Error()`. -/
def ChatError.Error : ChatError → String
  | .marshal err => err
  | .transport err => err
  | .decode err => err
  | .emptyResponse => "received empty chat response from Ollama API"

/-- The `for` loop of `GenerateChatCompletion` (ollama.go 97-111), started with
the current value of `fullContent`.  The end of the list is `io.EOF`. -/
def streamLoop (fullContent : String) : List Decoded → Except ChatError String
  | [] => .ok fullContent
  | .malformed err :: _ => .error (.decode err)
  | .fragment chunk :: rest =>
    if chunk.Done then .ok (fullContent ++ chunk.Message.Content)
    else streamLoop (fullContent ++ chunk.Message.Content) rest

/-- Method `Client.GenerateChatCompletion` (ollama.go 66-130).  `createdAt` is
`time.Now().Format(time.RFC3339)` at the moment the reply is built. -/
def GenerateChatCompletion (reqData : ChatRequest) (ex : Exchange) (createdAt : String) :
    Except ChatError ChatResponse :=
  match ex with
  | .marshalFails err => .error (.marshal err)
  | .postFails err => .error (.transport err)
  | .body stream =>
    match streamLoop "" stream with
    | .error e => .error e
    | .ok fullContent =>
      if fullContent = "" then .error .emptyResponse
      else .ok ⟨reqData.Model, createdAt, ⟨"assistant", fullContent, []⟩, true⟩

/-- The contents of a list of fragments joined in list order. -/
def concatContents : List ChatResponse → String
  | [] => ""
  | f :: fs => f.Message.Content ++ concatContents fs

/-- A response body made of well-formed fragments only. -/
def wellFormed (fs : List ChatResponse) : Exchange :=
  .body (fs.map Decoded.fragment)

/-- The fragments the loop reads from a well-formed stream: all of them up to
and including the first one with `done = true`. -/
def consumed : List ChatResponse → List ChatResponse
  | [] => []
  | f :: fs => if f.Done then [f] else f :: consumed fs

end Ollama

namespace Sqlite

open Ollama

/-- Type `Message` of `sqlite.go`: one row of the `messages` table.  `ID` is the
`INTEGER PRIMARY KEY AUTOINCREMENT` column, `Timestamp` the clock reading
stored by `DEFAULT CURRENT_TIMESTAMP`. -/
structure Message where
  ID : Nat
  ConversationID : String
  Role : String
  Content : String
  Timestamp : Nat
deriving DecidableEq, Repr

/-- The database behind `Storage`: the rows of `messages` and the counter that
`AUTOINCREMENT` keeps for the table (the largest id ever handed out). -/
structure Storage where
  rows : List Message
  seq : Nat
deriving DecidableEq, Repr

/-- The largest `id` present in the table, `0` for an empty table. -/
def maxRowID : List Message → Nat
  | [] => 0
  | m :: ms => max m.ID (maxRowID ms)

/-- The id `AUTOINCREMENT` gives the next inserted row: one more than both the
largest id present and the largest id ever handed out. -/
def Storage.nextID (s : Storage) : Nat :=
  max s.seq (maxRowID s.rows) + 1

/-- Method `Storage.AddMessage` (sqlite.go 64-74).  `dbOk` says whether `DB.Exec`
succeeds; `none` is the returned error, with the table untouched. -/
def Storage.AddMessage (s : Storage) (dbOk : Bool) (now : Nat)
    (conversationID role content : String) : Option Storage :=
  if dbOk then
    some ⟨s.rows ++ [⟨s.nextID, conversationID, role, content, now⟩], s.nextID⟩
  else none

/-- Method `Storage.GetMessagesForConversation` (sqlite.go 77-100):
`WHERE conversation_id = ? ORDER BY id`.  `dbOk` says whether the query and
every `rows.Scan` succeed. -/
def Storage.GetMessagesForConversation (s : Storage) (dbOk : Bool)
    (conversationID : String) : Option (List Message) :=
  if dbOk then
    some ((s.rows.filter (fun m => m.ConversationID = conversationID)).insertionSort
      (fun a b => a.ID ≤ b.ID))
  else none

/-- Method `Storage.GetConversations` (sqlite.go 103-124):
`SELECT DISTINCT conversation_id ... ORDER BY conversation_id`.  Text is
ordered character by character, which is the byte order of its UTF-8 form. -/
def Storage.GetConversations (s : Storage) (dbOk : Bool) : Option (List String) :=
  if dbOk then
    some (((s.rows.map (fun m => m.ConversationID)).dedup).insertionSort
      (fun a b => a.data ≤ b.data))
  else none

/-- Method `Storage.DeleteMessage` (sqlite.go 127-137): `DELETE ... WHERE id = ?`.
The `AUTOINCREMENT` counter is not lowered by a delete. -/
def Storage.DeleteMessage (s : Storage) (dbOk : Bool) (id : Nat) : Option Storage :=
  if dbOk then some ⟨s.rows.filter (fun m => m.ID ≠ id), s.seq⟩ else none

end Sqlite

namespace UI

open Ollama Sqlite

/-- The variables `RunUI` shares between its handlers and its goroutines:
`activeConversationID`, `conversationHistory`, the database behind `store`,
and the goroutines started by the submit handler that have not finished yet
(oldest first), each with the `message` it captured. -/
structure Session where
  activeConversationID : String
  conversationHistory : List ChatMessage
  store : Storage
  pending : List String
deriving DecidableEq, Repr

/-- State at the start of `RunUI` (ui.go 17-20) over the database `store`. -/
def RunUI (store : Storage) : Session :=
  ⟨"default", [], store, []⟩

/-- The store after a call whose error is only logged: the new table on
success, the old one on failure. -/
def orKeep (old : Storage) : Option Storage → Storage
  | some st => st
  | none => old

/-- The `SetDoneFunc` handler on Enter (ui.go 92-113): appends the user turn,
stores it under the active conversation and starts the completion goroutine. -/
def submit (s : Session) (message : String) (dbOk : Bool) (now : Nat) : Session :=
  if message = "" then s
  else
    ⟨s.activeConversationID,
     s.conversationHistory ++ [⟨"user", message, []⟩],
     orKeep s.store (s.store.AddMessage dbOk now s.activeConversationID "user" message),
     s.pending ++ [message]⟩

/-- The text the goroutine turns the result of `GenerateChatCompletion` into
(ui.go 120-128): the reply content, or `fmt.Sprintf("Error: %v", err)`. -/
def apiResponse : Except ChatError ChatResponse → String
  | .error err => "Error: " ++ err.Error
  | .ok resp => resp.Message.Content

/-- The body of the completion goroutine (ui.go 114-148), run for the `i`-th
unfinished goroutine when its HTTP exchange `ex` is over.  `conversationHistory`
and `activeConversationID` are the shared variables, read when the statement
runs.  Here the append to the history (ui.go 133) and the store call
(ui.go 138) run back to back; `completionAppend` and `completionStore` below
are the two statements on their own, for the schedules in which something
else runs between them.  (`chatReq.Messages` is read earlier, when the
goroutine starts; only `chatReq.Model` reaches the reply.) -/
def completion (s : Session) (i : Nat) (ex : Exchange) (createdAt : String)
    (dbOk : Bool) (now : Nat) : Session :=
  if i < s.pending.length then
    let chatReq : ChatRequest := ⟨"llama3.2", s.conversationHistory, true⟩
    let text := apiResponse (GenerateChatCompletion chatReq ex createdAt)
    ⟨s.activeConversationID,
     s.conversationHistory ++ [⟨"assistant", text, []⟩],
     orKeep s.store (s.store.AddMessage dbOk now s.activeConversationID "assistant" text),
     s.pending.eraseIdx i⟩
  else s

/-- The `onSelect` closure of the conversation list (ui.go 53-74): loads the
rows of `convID`, replaces the history and the active id. -/
def onSelect (s : Session) (convID : String) (dbOk : Bool) : Session :=
  match s.store.GetMessagesForConversation dbOk convID with
  | none => s
  | some msgs =>
    ⟨convID, msgs.map (fun m => ⟨m.Role, m.Content, []⟩), s.store, s.pending⟩

/-- Function `showConversationListView` (conversation.go 13-33) followed by the choice
of the entry `convID`: only an id that `GetConversations` lists can be chosen. -/
def showConversationListView (s : Session) (convID : String) (listOk loadOk : Bool) :
    Session :=
  match s.store.GetConversations listOk with
  | none => s
  | some convs => if convID ∈ convs then onSelect s convID loadOk else s

/-- Function `showCRUDView` (crud.go 17-49) followed by Enter on its `index`-th item:
the item carries the id of the `index`-th row listed for the active
conversation, and that row is deleted. -/
def showCRUDView (s : Session) (index : Nat) (listOk deleteOk : Bool) : Session :=
  match s.store.GetMessagesForConversation listOk s.activeConversationID with
  | none => s
  | some msgs =>
    match msgs.get? index with
    | none => s
    | some msg =>
      ⟨s.activeConversationID, s.conversationHistory,
       orKeep s.store (s.store.DeleteMessage deleteOk msg.ID), s.pending⟩

/-- What can happen to a running session. -/
inductive Event where
  | submitted (message : String) (dbOk : Bool) (now : Nat)
  | resolved (i : Nat) (ex : Exchange) (createdAt : String) (dbOk : Bool) (now : Nat)
  | switched (convID : String) (listOk loadOk : Bool)
  | deleted (index : Nat) (listOk deleteOk : Bool)
deriving DecidableEq, Repr

/-- The session after one event. -/
def step (s : Session) : Event → Session
  | .submitted message dbOk now => submit s message dbOk now
  | .resolved i ex createdAt dbOk now => completion s i ex createdAt dbOk now
  | .switched convID listOk loadOk => showConversationListView s convID listOk loadOk
  | .deleted index listOk deleteOk => showCRUDView s index listOk deleteOk

/-- The session after a sequence of events, oldest first. -/
def run (s : Session) : List Event → Session
  | [] => s
  | e :: es => run (step s e) es

/-- The role/content pairs of a history. -/
def turnsOfHistory (h : List ChatMessage) : List (String × String) :=
  h.map (fun m => (m.Role, m.Content))

/-- The role/content pairs a conversation has in the database, in id order:
what `GetMessagesForConversation` returns when the query succeeds. -/
def persistedTurns (st : Storage) (conversationID : String) : List (String × String) :=
  match st.GetMessagesForConversation true conversationID with
  | some msgs => msgs.map (fun m => (m.Role, m.Content))
  | none => []

/-- The history shows exactly what the database holds for the active
conversation. -/
def Consistent (s : Session) : Prop :=
  turnsOfHistory s.conversationHistory = persistedTurns s.store s.activeConversationID

instance (s : Session) : Decidable (Consistent s) := by
  unfold Consistent; infer_instance

/-- A response body of two fragments, "He" then "llo" with `done = true`. -/
def helloBody : Exchange :=
  wellFormed [⟨"llama3.2", "t0", ⟨"assistant", "He", []⟩, false⟩,
    ⟨"llama3.2", "t1", ⟨"assistant", "llo", []⟩, true⟩]

/-- A database that already holds one turn of the conversation "B". -/
def storeWithB : Storage :=
  ⟨[⟨1, "B", "user", "yo", 0⟩], 1⟩

/-- A database that already holds one turn of the conversation "default". -/
def storeWithDefault : Storage :=
  ⟨[⟨1, "default", "user", "old", 0⟩], 1⟩

/-- A session in which "hi" was submitted under "default" and the user then
switched to "B" while the completion was still running. -/
def switchedWhileWaiting : Session :=
  run (RunUI storeWithB) [.submitted "hi" true 10, .switched "B" true true]

/-- The completion of `switchedWhileWaiting` resolving with `helloBody`. -/
def resolvedAfterSwitch : Session :=
  step switchedWhileWaiting (.resolved 0 helloBody "now" true 20)

/-- The text a completion goroutine shows for the outcome `ex` of its exchange;
the messages that were sent do not enter it. -/
def replyText (ex : Exchange) (createdAt : String) : String :=
  apiResponse (GenerateChatCompletion ⟨"llama3.2", [], true⟩ ex createdAt)

/-- The running program, statement by statement: the shared variables, and
the texts of the goroutines that have appended their assistant turn to the
history (ui.go 133) but have not made their store call (ui.go 138) yet, in the
order of their appends. -/
structure Running where
  session : Session
  unsaved : List String
deriving DecidableEq, Repr

/-- The program at the start of `RunUI` over the database `store`. -/
def boot (store : Storage) : Running :=
  ⟨RunUI store, []⟩

/-- The completion goroutine up to and including its append to the history
(ui.go 115-136), run by the `i`-th goroutine that has not appended yet when
its HTTP exchange `ex` is over.  The text stays in the goroutine's local
`apiResponse` for the store call. -/
def completionAppend (r : Running) (i : Nat) (ex : Exchange) (createdAt : String) :
    Running :=
  if i < r.session.pending.length then
    let chatReq : ChatRequest := ⟨"llama3.2", r.session.conversationHistory, true⟩
    let text := apiResponse (GenerateChatCompletion chatReq ex createdAt)
    ⟨⟨r.session.activeConversationID,
      r.session.conversationHistory ++ [⟨"assistant", text, []⟩],
      r.session.store,
      r.session.pending.eraseIdx i⟩,
     r.unsaved ++ [text]⟩
  else r

/-- The store call of the completion goroutine (ui.go 138-142), run by the
`j`-th goroutine that has appended and not stored yet: `AddMessage` under the
conversation id that is active when the call runs. -/
def completionStore (r : Running) (j : Nat) (dbOk : Bool) (now : Nat) : Running :=
  match r.unsaved.get? j with
  | none => r
  | some text =>
    ⟨⟨r.session.activeConversationID,
      r.session.conversationHistory,
      orKeep r.session.store
        (r.session.store.AddMessage dbOk now r.session.activeConversationID "assistant" text),
      r.session.pending⟩,
     r.unsaved.eraseIdx j⟩

/-- What can run next in the program: a handler of the interface, or one of
the two statements of a completion goroutine. -/
inductive Action where
  | submitted (message : String) (dbOk : Bool) (now : Nat)
  | appended (i : Nat) (ex : Exchange) (createdAt : String)
  | stored (j : Nat) (dbOk : Bool) (now : Nat)
  | switched (convID : String) (listOk loadOk : Bool)
  | deleted (index : Nat) (listOk deleteOk : Bool)
deriving DecidableEq, Repr

/-- The program after one action. -/
def act (r : Running) : Action → Running
  | .submitted message dbOk now => ⟨submit r.session message dbOk now, r.unsaved⟩
  | .appended i ex createdAt => completionAppend r i ex createdAt
  | .stored j dbOk now => completionStore r j dbOk now
  | .switched convID listOk loadOk =>
    ⟨showConversationListView r.session convID listOk loadOk, r.unsaved⟩
  | .deleted index listOk deleteOk =>
    ⟨showCRUDView r.session index listOk deleteOk, r.unsaved⟩

/-- The program after a schedule of actions, oldest first. -/
def exec (r : Running) : List Action → Running
  | [] => r
  | a :: as => exec (act r a) as

/-- The history shows what the database holds for the active conversation,
followed by the assistant turns that are appended and not stored yet. -/
def Settled (r : Running) : Prop :=
  turnsOfHistory r.session.conversationHistory
    = persistedTurns r.session.store r.session.activeConversationID
      ++ r.unsaved.map (fun text => ("assistant", text))

instance (r : Running) : Decidable (Settled r) := by
  unfold Settled; infer_instance

/-- The action leaves no gap between history and database in the state `r`:
a submission or a switch that runs while no appended turn awaits its store
call, an append, or the store call of the goroutine that appended first; the
database calls of a submission and of a store call succeed; no delete. -/
def Action.keeps (r : Running) : Action → Bool
  | .submitted _ dbOk _ => dbOk && r.unsaved.isEmpty
  | .appended _ _ _ => true
  | .stored j dbOk _ => dbOk && j == 0
  | .switched _ _ _ => r.unsaved.isEmpty
  | .deleted _ _ _ => false

/-- Every action of the schedule keeps history and database together in the
state it runs in. -/
def calm (r : Running) : List Action → Bool
  | [] => true
  | a :: as => a.keeps r && calm (act r a) as

/-- The database is empty, "hi" is submitted and answered, and the user turn
is then deleted from the CRUD view. -/
def deletedFirstTurn : Running :=
  exec (boot ⟨[], 0⟩)
    [.submitted "hi" true 10, .appended 0 helloBody "now", .stored 0 true 20,
     .deleted 0 true true]

/-- The database is empty, "hi" is submitted, its goroutine appends "Hello",
the user reloads "default" before the goroutine stores, the goroutine stores,
and "probe" is submitted. -/
def switchedBetween : Running :=
  exec (boot ⟨[], 0⟩)
    [.submitted "hi" true 10, .appended 0 helloBody "now", .switched "default" true true,
     .stored 0 true 20, .submitted "probe" true 30]

/-- The database is empty, "hi" is submitted, its goroutine appends "Hello",
"probe" is submitted before the goroutine stores, and the goroutine stores. -/
def submittedBetween : Running :=
  exec (boot ⟨[], 0⟩)
    [.submitted "hi" true 10, .appended 0 helloBody "now", .submitted "probe" true 30,
     .stored 0 true 20]

/-- The database is empty, "one" and "two" are submitted, the goroutine of
"two" appends before that of "one", and the goroutine of "one" stores before
that of "two". -/
def storedInOtherOrder : Running :=
  exec (boot ⟨[], 0⟩)
    [.submitted "one" true 1, .submitted "two" true 2,
     .appended 1 helloBody "t", .appended 0 (.postFails "refused") "u",
     .stored 1 true 3, .stored 0 true 4]

/-- Go's `len` of a string: its number of bytes. -/
def len (s : String) : Int :=
  s.utf8ByteSize

/-- Go's `unicode.IsSpace`: the characters at which `strings.Fields` cuts. -/
def isSpace (c : Char) : Bool :=
  (9 ≤ c.toNat && c.toNat ≤ 13) || c.toNat == 32 || c.toNat == 0x85 || c.toNat == 0xA0
    || c.toNat == 0x1680 || (0x2000 ≤ c.toNat && c.toNat ≤ 0x200A)
    || c.toNat == 0x2028 || c.toNat == 0x2029 || c.toNat == 0x202F
    || c.toNat == 0x205F || c.toNat == 0x3000

/-- The scan behind `strings.Fields`: `word` holds the characters of the word
being read. -/
def fieldsLoop : List Char → List Char → List String
  | [], word => if word = [] then [] else [String.mk word]
  | c :: cs, word =>
    if isSpace c then
      if word = [] then fieldsLoop cs [] else String.mk word :: fieldsLoop cs []
    else fieldsLoop cs (word ++ [c])

/-- Go's `strings.Fields`: the maximal runs of non-space characters, in order. -/
def Fields (s : String) : List String :=
  fieldsLoop s.data []

/-- The `for` loop of `wrapText` (bubble.go 13-24) over the remaining words,
with the current values of `lines` and `current`. -/
def wrapLoop (width : Int) : List String → List String → String → List String × String
  | [], lines, current => (lines, current)
  | w :: ws, lines, current =>
    if len current + len w + 1 > width then wrapLoop width ws (lines ++ [current]) w
    else if current = "" then wrapLoop width ws lines w
    else wrapLoop width ws lines (current ++ " " ++ w)

/-- Function `wrapText` (bubble.go 9-29). -/
def wrapText (text : String) (width : Int) : List String :=
  if (wrapLoop width (Fields text) [] "").2 ≠ "" then
    (wrapLoop width (Fields text) [] "").1 ++ [(wrapLoop width (Fields text) [] "").2]
  else (wrapLoop width (Fields text) [] "").1

/-- Go's `strings.Repeat`; `none` is the panic on a negative count.  (Its other
panic, on a result longer than an `int` can count, needs a count no string
length in memory reaches and is not represented.) -/
def Repeat (s : String) (count : Int) : Option String :=
  if count < 0 then none else some (String.join (List.replicate count.toNat s))

/-- The first loop of `createBubble` (bubble.go 35-40): the largest `len` among
the lines, starting from the current `maxWidth`. -/
def maxWidthLoop (maxWidth : Int) : List String → Int
  | [] => maxWidth
  | line :: rest =>
    if len line > maxWidth then maxWidthLoop (len line) rest else maxWidthLoop maxWidth rest

/-- Local `titleFormatted` of `createBubble`: `fmt.Sprintf(" %s ", title)`. -/
def titleFormatted (title : String) : String :=
  " " ++ title ++ " "

/-- Local `bubbleWidth` of `createBubble` (bubble.go 42-45). -/
def bubbleWidth (title text : String) : Int :=
  if len (titleFormatted title) > maxWidthLoop 0 (wrapText text 50) + 2 then
    len (titleFormatted title)
  else maxWidthLoop 0 (wrapText text 50) + 2

/-- Local `titlePadding` of `createBubble` (bubble.go 46); Go's `/` on `int`
truncates toward zero. -/
def titlePadding (title text : String) : Int :=
  (bubbleWidth title text - len (titleFormatted title)).tdiv 2

/-- The second loop of `createBubble` (bubble.go 50-53) over the remaining
lines, with the current value of `middleLines`. -/
def middleLoop (color : String) (width : Int) (middleLines : String) :
    List String → Option String
  | [] => some middleLines
  | line :: rest =>
    match Repeat " " (width - len line - 1) with
    | none => none
    | some pad =>
      middleLoop color width
        (middleLines ++ (color ++ "│ " ++ line ++ pad ++ "│" ++ "[white]\n")) rest

/-- Function `createBubble` (bubble.go 32-56); `none` is a panic raised by one
of its `strings.Repeat` calls. -/
def createBubble (title text color : String) : Option String :=
  match Repeat "─" (titlePadding title text) with
  | none => none
  | some left =>
    match Repeat "─"
        (bubbleWidth title text - len (titleFormatted title) - titlePadding title text) with
    | none => none
    | some right =>
      match middleLoop color (bubbleWidth title text) "" (wrapText text 50) with
      | none => none
      | some middleLines =>
        match Repeat "─" (bubbleWidth title text) with
        | none => none
        | some bottom =>
          some ((color ++ "┌" ++ left ++ titleFormatted title ++ right ++ "┐" ++ "[white]\n")
            ++ middleLines ++ (color ++ "└" ++ bottom ++ "┘" ++ "[white]"))

end UI

/-! ## The stream loop -/

namespace Ollama

theorem append_eq_empty_iff (s t : String) : s ++ t = "" ↔ s = "" ∧ t = "" := by
  constructor
  · intro h
    have hd : s.data ++ t.data = [] := by
      have := congrArg String.data h
      simpa using this
    have h1 : s.data = [] := (List.append_eq_nil.mp hd).1
    have h2 : t.data = [] := (List.append_eq_nil.mp hd).2
    exact ⟨String.ext h1, String.ext h2⟩
  · rintro ⟨rfl, rfl⟩
    rfl

theorem concatContents_append (xs ys : List ChatResponse) :
    concatContents (xs ++ ys) = concatContents xs ++ concatContents ys := by
  induction xs with
  | nil => simp [concatContents]
  | cons x xs ih => simp [concatContents, ih, String.append_assoc]

theorem concatContents_eq_empty_iff (fs : List ChatResponse) :
    concatContents fs = "" ↔ ∀ f ∈ fs, f.Message.Content = "" := by
  induction fs with
  | nil => simp [concatContents]
  | cons f fs ih => simp [concatContents, append_eq_empty_iff, ih]

/-- On well-formed fragments the loop never fails and returns what it had plus
the contents of the fragments it read. -/
theorem streamLoop_fragments (fs : List ChatResponse) (acc : String) :
    streamLoop acc (fs.map Decoded.fragment) = .ok (acc ++ concatContents (consumed fs)) := by
  induction fs generalizing acc with
  | nil => simp [streamLoop, consumed, concatContents]
  | cons f fs ih =>
    by_cases hd : f.Done = true
    · simp [streamLoop, consumed, concatContents, hd]
    · simp [streamLoop, consumed, concatContents, hd, ih, String.append_assoc]

theorem consumed_of_no_done (fs : List ChatResponse) (h : ∀ f ∈ fs, f.Done = false) :
    consumed fs = fs := by
  induction fs with
  | nil => rfl
  | cons f fs ih =>
    have hf : f.Done = false := h f (List.mem_cons_self _ _)
    have ht : ∀ g ∈ fs, g.Done = false := fun g hg => h g (List.mem_cons_of_mem _ hg)
    simp [consumed, hf, ih ht]

theorem consumed_done_last (pre : List ChatResponse) (last : ChatResponse)
    (hpre : ∀ f ∈ pre, f.Done = false) (hlast : last.Done = true) :
    consumed (pre ++ [last]) = pre ++ [last] := by
  induction pre with
  | nil => simp [consumed, hlast]
  | cons f fs ih =>
    have hf : f.Done = false := hpre f (List.mem_cons_self _ _)
    have ht : ∀ g ∈ fs, g.Done = false := fun g hg => hpre g (List.mem_cons_of_mem _ hg)
    simp [consumed, hf, ih ht]

/-- A malformed fragment met before any `done` fragment ends the loop with the
decode error, whatever has been accumulated. -/
theorem streamLoop_malformed (pre : List ChatResponse) (err : String) (rest : List Decoded)
    (acc : String) (hpre : ∀ f ∈ pre, f.Done = false) :
    streamLoop acc (pre.map Decoded.fragment ++ Decoded.malformed err :: rest)
      = .error (.decode err) := by
  induction pre generalizing acc with
  | nil => simp [streamLoop]
  | cons f fs ih =>
    have hf : f.Done = false := hpre f (List.mem_cons_self _ _)
    have ht : ∀ g ∈ fs, g.Done = false := fun g hg => hpre g (List.mem_cons_of_mem _ hg)
    simp [streamLoop, hf, ih _ ht]

/-- The result of a call over well-formed fragments, in closed form. -/
theorem generate_wellFormed (reqData : ChatRequest) (createdAt : String)
    (fs : List ChatResponse) :
    GenerateChatCompletion reqData (wellFormed fs) createdAt =
      if concatContents (consumed fs) = "" then .error .emptyResponse
      else .ok ⟨reqData.Model, createdAt,
        ⟨"assistant", concatContents (consumed fs), []⟩, true⟩ := by
  simp [GenerateChatCompletion, wellFormed, streamLoop_fragments]

/-- C1: a well-formed stream that ends in its only `done = true` fragment and
whose contents are not all empty makes `GenerateChatCompletion` succeed with a
reply whose content is the contents of the fragments joined in arrival order;
so any other such stream with the same joined contents, however it is cut into
fragments, gives the same reply. -/
theorem generate_concatenates (reqData : ChatRequest) (createdAt : String)
    (pre : List ChatResponse) (last : ChatResponse)
    (hpre : ∀ f ∈ pre, f.Done = false) (hlast : last.Done = true)
    (hne : ∃ f ∈ pre ++ [last], f.Message.Content ≠ "") :
    GenerateChatCompletion reqData (wellFormed (pre ++ [last])) createdAt
      = .ok ⟨reqData.Model, createdAt,
          ⟨"assistant", concatContents (pre ++ [last]), []⟩, true⟩
    ∧ ∀ (pre2 : List ChatResponse) (last2 : ChatResponse),
        (∀ f ∈ pre2, f.Done = false) → last2.Done = true →
        concatContents (pre2 ++ [last2]) = concatContents (pre ++ [last]) →
        GenerateChatCompletion reqData (wellFormed (pre2 ++ [last2])) createdAt
          = GenerateChatCompletion reqData (wellFormed (pre ++ [last])) createdAt := by
  have hcat : concatContents (pre ++ [last]) ≠ "" := by
    intro h
    obtain ⟨f, hf, hfc⟩ := hne
    exact hfc ((concatContents_eq_empty_iff _).mp h f hf)
  refine ⟨?_, ?_⟩
  · rw [generate_wellFormed, consumed_done_last pre last hpre hlast, if_neg hcat]
  · intro pre2 last2 hpre2 hlast2 heq
    rw [generate_wellFormed, generate_wellFormed, consumed_done_last pre last hpre hlast,
      consumed_done_last pre2 last2 hpre2 hlast2, heq]

theorem generate_concatenates_witness :
    GenerateChatCompletion ⟨"llama3.2", [⟨"user", "hi", []⟩], true⟩
        (wellFormed ([⟨"llama3.2", "t0", ⟨"assistant", "He", []⟩, false⟩]
          ++ [⟨"llama3.2", "t1", ⟨"assistant", "llo", []⟩, true⟩])) "now"
      = .ok ⟨"llama3.2", "now", ⟨"assistant", "Hello", []⟩, true⟩ :=
  (generate_concatenates ⟨"llama3.2", [⟨"user", "hi", []⟩], true⟩ "now"
    [⟨"llama3.2", "t0", ⟨"assistant", "He", []⟩, false⟩]
    ⟨"llama3.2", "t1", ⟨"assistant", "llo", []⟩, true⟩
    (by decide) (by decide) (by decide)).1

/-- C4: when every fragment the loop consumes from a well-formed stream has
empty content (the stream without fragments included), `GenerateChatCompletion`
returns no reply and fails with the empty-response error, which is neither a
decode error nor a transport error. -/
theorem generate_empty_response (reqData : ChatRequest) (createdAt : String)
    (fs : List ChatResponse) (hempty : ∀ f ∈ consumed fs, f.Message.Content = "") :
    GenerateChatCompletion reqData (wellFormed fs) createdAt = .error .emptyResponse
    ∧ (∀ err : String, ChatError.emptyResponse ≠ ChatError.decode err)
    ∧ (∀ err : String, ChatError.emptyResponse ≠ ChatError.transport err) := by
  refine ⟨?_, ?_, ?_⟩
  · rw [generate_wellFormed, if_pos ((concatContents_eq_empty_iff _).mpr hempty)]
  · intro err h
    cases h
  · intro err h
    cases h

theorem generate_empty_response_witness :
    GenerateChatCompletion ⟨"llama3.2", [], true⟩
        (wellFormed [⟨"llama3.2", "t0", ⟨"assistant", "", []⟩, false⟩,
          ⟨"llama3.2", "t1", ⟨"assistant", "", []⟩, true⟩,
          ⟨"llama3.2", "t2", ⟨"assistant", "late", []⟩, false⟩]) "now"
      = .error .emptyResponse :=
  (generate_empty_response ⟨"llama3.2", [], true⟩ "now"
    [⟨"llama3.2", "t0", ⟨"assistant", "", []⟩, false⟩,
      ⟨"llama3.2", "t1", ⟨"assistant", "", []⟩, true⟩,
      ⟨"llama3.2", "t2", ⟨"assistant", "late", []⟩, false⟩]
    (by decide)).1

/-- C5, as stated, fails: a well-formed stream of one fragment with empty
content and `done = false`, followed by end-of-data, gets no reply but the
empty-response error. -/
theorem generate_no_done_empty_fails :
    (⟨"llama3.2", "t0", ⟨"assistant", "", []⟩, false⟩ : ChatResponse).Done = false
    ∧ GenerateChatCompletion ⟨"llama3.2", [], true⟩
        (wellFormed [⟨"llama3.2", "t0", ⟨"assistant", "", []⟩, false⟩]) "now"
      = .error .emptyResponse :=
  ⟨rfl, rfl⟩

/-- C5, amended: on a well-formed stream that reaches end-of-data with no
`done = true` fragment the result is the one the same stream gives with its
last fragment marked `done`: a reply whose content is the contents of all
fragments joined in order when that is not empty, the empty-response error
when it is empty. -/
theorem generate_without_done (reqData : ChatRequest) (createdAt : String)
    (fs : List ChatResponse) (hnodone : ∀ f ∈ fs, f.Done = false) :
    (concatContents fs ≠ "" →
      GenerateChatCompletion reqData (wellFormed fs) createdAt
        = .ok ⟨reqData.Model, createdAt, ⟨"assistant", concatContents fs, []⟩, true⟩)
    ∧ (concatContents fs = "" →
      GenerateChatCompletion reqData (wellFormed fs) createdAt = .error .emptyResponse)
    ∧ ∀ (pre : List ChatResponse) (last : ChatResponse), fs = pre ++ [last] →
        GenerateChatCompletion reqData (wellFormed fs) createdAt
          = GenerateChatCompletion reqData
              (wellFormed (pre ++ [⟨last.Model, last.CreatedAt, last.Message, true⟩]))
              createdAt := by
  have hc : consumed fs = fs := consumed_of_no_done fs hnodone
  refine ⟨?_, ?_, ?_⟩
  · intro hne
    rw [generate_wellFormed, hc, if_neg hne]
  · intro he
    rw [generate_wellFormed, hc, if_pos he]
  · intro pre last hfs
    have hpre : ∀ f ∈ pre, f.Done = false := by
      intro f hf
      exact hnodone f (by rw [hfs]; exact List.mem_append_left _ hf)
    have hc2 := consumed_done_last pre ⟨last.Model, last.CreatedAt, last.Message, true⟩
      hpre rfl
    rw [generate_wellFormed, generate_wellFormed, hc, hc2, hfs]
    simp [concatContents_append, concatContents]

theorem generate_without_done_witness :
    GenerateChatCompletion ⟨"llama3.2", [], true⟩
        (wellFormed [⟨"llama3.2", "t0", ⟨"assistant", "He", []⟩, false⟩,
          ⟨"llama3.2", "t1", ⟨"assistant", "llo", []⟩, false⟩]) "now"
      = .ok ⟨"llama3.2", "now", ⟨"assistant", "Hello", []⟩, true⟩ :=
  (generate_without_done ⟨"llama3.2", [], true⟩ "now"
    [⟨"llama3.2", "t0", ⟨"assistant", "He", []⟩, false⟩,
      ⟨"llama3.2", "t1", ⟨"assistant", "llo", []⟩, false⟩]
    (by decide)).1 (by decide)

/-- C6: a malformed fragment reached before any `done = true` fragment makes
`GenerateChatCompletion` fail with that decode error, whatever the fragments
before it carried: no reply is returned and the error is not the
empty-response error. -/
theorem generate_decode_error (reqData : ChatRequest) (createdAt : String)
    (pre : List ChatResponse) (err : String) (rest : List Decoded)
    (hpre : ∀ f ∈ pre, f.Done = false) :
    GenerateChatCompletion reqData
        (.body (pre.map Decoded.fragment ++ Decoded.malformed err :: rest)) createdAt
      = .error (.decode err)
    ∧ ChatError.decode err ≠ ChatError.emptyResponse := by
  refine ⟨?_, ?_⟩
  · simp [GenerateChatCompletion, streamLoop_malformed pre err rest "" hpre]
  · intro h
    cases h

theorem generate_decode_error_witness :
    GenerateChatCompletion ⟨"llama3.2", [], true⟩
        (.body ([(⟨"llama3.2", "t0", ⟨"assistant", "He", []⟩, false⟩ : ChatResponse)].map
            Decoded.fragment
          ++ Decoded.malformed "invalid character" ::
            [Decoded.fragment ⟨"llama3.2", "t1", ⟨"assistant", "llo", []⟩, true⟩])) "now"
      = .error (.decode "invalid character") :=
  (generate_decode_error ⟨"llama3.2", [], true⟩ "now"
    [⟨"llama3.2", "t0", ⟨"assistant", "He", []⟩, false⟩] "invalid character"
    [Decoded.fragment ⟨"llama3.2", "t1", ⟨"assistant", "llo", []⟩, true⟩]
    (by decide)).1

end Ollama

/-! ## The message table -/

namespace Sqlite

theorem orderedInsert_append_last (a x : Message) (h : a.ID ≤ x.ID) (l : List Message) :
    (l ++ [x]).orderedInsert (fun a b => a.ID ≤ b.ID) a
      = l.orderedInsert (fun a b => a.ID ≤ b.ID) a ++ [x] := by
  induction l with
  | nil => simp [List.orderedInsert, h]
  | cons b l ih =>
    by_cases hab : a.ID ≤ b.ID
    · simp [List.orderedInsert, hab]
    · simp [List.orderedInsert, hab, ih]

/-- Sorting by id leaves a row whose id is the largest at the end. -/
theorem insertionSort_append_last (x : Message) (l : List Message)
    (h : ∀ m ∈ l, m.ID ≤ x.ID) :
    (l ++ [x]).insertionSort (fun a b => a.ID ≤ b.ID)
      = l.insertionSort (fun a b => a.ID ≤ b.ID) ++ [x] := by
  induction l with
  | nil => simp
  | cons b l ih =>
    have hb : b.ID ≤ x.ID := h b (List.mem_cons_self _ _)
    have ht : ∀ m ∈ l, m.ID ≤ x.ID := fun m hm => h m (List.mem_cons_of_mem _ hm)
    have hcons : (b :: l ++ [x]).insertionSort (fun a b => a.ID ≤ b.ID)
        = ((l ++ [x]).insertionSort (fun a b => a.ID ≤ b.ID)).orderedInsert
            (fun a b => a.ID ≤ b.ID) b := rfl
    rw [hcons, ih ht, orderedInsert_append_last b x hb]
    rfl

theorem le_maxRowID (rows : List Message) : ∀ m ∈ rows, m.ID ≤ maxRowID rows := by
  induction rows with
  | nil => simp
  | cons b l ih =>
    intro m hm
    rcases List.mem_cons.mp hm with rfl | hm
    · exact le_max_left _ _
    · exact le_trans (ih m hm) (le_max_right _ _)

theorem lt_nextID (s : Storage) : ∀ m ∈ s.rows, m.ID < s.nextID := by
  intro m hm
  have := le_maxRowID s.rows m hm
  unfold Storage.nextID
  omega

/-- A successful `AddMessage` puts the new row last in its own conversation and
leaves every other conversation as it was. -/
theorem get_after_add (s : Storage) (now : Nat) (c role content conv : String) :
    ∃ st, s.AddMessage true now c role content = some st
      ∧ st.GetMessagesForConversation true conv
        = some ((s.rows.filter (fun m => m.ConversationID = conv)).insertionSort
                  (fun a b => a.ID ≤ b.ID)
            ++ if c = conv then [⟨s.nextID, c, role, content, now⟩] else []) := by
  refine ⟨⟨s.rows ++ [⟨s.nextID, c, role, content, now⟩], s.nextID⟩,
    by simp [Storage.AddMessage], ?_⟩
  by_cases hc : c = conv
  · have hle : ∀ m ∈ s.rows.filter (fun m => m.ConversationID = conv),
        m.ID ≤ (⟨s.nextID, c, role, content, now⟩ : Message).ID := by
      intro m hm
      exact le_of_lt (lt_nextID s m (List.mem_of_mem_filter hm))
    simp only [Storage.GetMessagesForConversation, if_true, List.filter_append, hc]
    simp only [List.filter_cons, List.filter_nil, decide_True, if_true]
    rw [insertionSort_append_last _ _ (by simpa [hc] using hle)]
  · simp [Storage.GetMessagesForConversation, List.filter_append, hc]

end Sqlite

/-! ## The session -/

namespace UI

open Ollama Sqlite

/-- A turn stored with success shows up last in the record of its own
conversation and nowhere else. -/
theorem persistedTurns_add (st : Storage) (now : Nat) (c role content conv : String) :
    persistedTurns (orKeep st (st.AddMessage true now c role content)) conv
      = persistedTurns st conv ++ if c = conv then [(role, content)] else [] := by
  obtain ⟨st2, hadd, hget⟩ := get_after_add st now c role content conv
  rw [hadd]
  simp only [orKeep, persistedTurns, hget]
  by_cases hc : c = conv
  · simp [Storage.GetMessagesForConversation, hc]
  · simp [Storage.GetMessagesForConversation, hc]

theorem submit_eq (s : Session) (message : String) (dbOk : Bool) (now : Nat)
    (hm : message ≠ "") :
    submit s message dbOk now =
      ⟨s.activeConversationID,
       s.conversationHistory ++ [⟨"user", message, []⟩],
       orKeep s.store (s.store.AddMessage dbOk now s.activeConversationID "user" message),
       s.pending ++ [message]⟩ := by
  simp [submit, hm]

theorem completion_eq (s : Session) (i : Nat) (ex : Exchange) (createdAt : String)
    (dbOk : Bool) (now : Nat) (hi : i < s.pending.length) :
    completion s i ex createdAt dbOk now =
      ⟨s.activeConversationID,
       s.conversationHistory ++ [⟨"assistant",
          apiResponse (GenerateChatCompletion ⟨"llama3.2", s.conversationHistory, true⟩
            ex createdAt), []⟩],
       orKeep s.store (s.store.AddMessage dbOk now s.activeConversationID "assistant"
          (apiResponse (GenerateChatCompletion ⟨"llama3.2", s.conversationHistory, true⟩
            ex createdAt))),
       s.pending.eraseIdx i⟩ := by
  simp [completion, hi]

theorem onSelect_eq (s : Session) (convID : String) :
    onSelect s convID true =
      ⟨convID,
       ((s.store.rows.filter (fun m => m.ConversationID = convID)).insertionSort
          (fun a b => a.ID ≤ b.ID)).map (fun m => ⟨m.Role, m.Content, []⟩),
       s.store, s.pending⟩ := by
  simp [onSelect, Storage.GetMessagesForConversation]

/-- A successful reload shows exactly the stored record of the chosen
conversation. -/
theorem onSelect_turns (s : Session) (convID : String) :
    turnsOfHistory (onSelect s convID true).conversationHistory
      = persistedTurns s.store convID := by
  simp [onSelect_eq, turnsOfHistory, persistedTurns, Storage.GetMessagesForConversation]

/-- The reply text does not depend on the messages that were sent. -/
theorem apiResponse_messages (h1 h2 : List ChatMessage) (ex : Exchange)
    (createdAt : String) :
    apiResponse (GenerateChatCompletion ⟨"llama3.2", h1, true⟩ ex createdAt)
      = apiResponse (GenerateChatCompletion ⟨"llama3.2", h2, true⟩ ex createdAt) := by
  cases ex with
  | marshalFails err => rfl
  | postFails err => rfl
  | body stream => simp only [GenerateChatCompletion]

theorem submit_consistent (s : Session) (message : String) (now : Nat)
    (hc : Consistent s) : Consistent (submit s message true now) := by
  by_cases hm : message = ""
  · simpa [submit, hm] using hc
  · unfold Consistent at hc ⊢
    rw [submit_eq s message true now hm]
    simp only [persistedTurns_add, if_true]
    rw [← hc]
    simp [turnsOfHistory]

theorem completion_consistent (s : Session) (i : Nat) (ex : Exchange)
    (createdAt : String) (now : Nat) (hc : Consistent s) :
    Consistent (completion s i ex createdAt true now) := by
  by_cases hi : i < s.pending.length
  · unfold Consistent at hc ⊢
    rw [completion_eq s i ex createdAt true now hi]
    simp only [persistedTurns_add, if_true]
    rw [← hc]
    simp [turnsOfHistory]
  · simpa [completion, hi] using hc

theorem onSelect_consistent (s : Session) (convID : String) (dbOk : Bool)
    (hc : Consistent s) : Consistent (onSelect s convID dbOk) := by
  cases dbOk with
  | false => simpa [onSelect, Storage.GetMessagesForConversation] using hc
  | true =>
    unfold Consistent
    rw [onSelect_turns]
    simp [onSelect_eq]

theorem showConversationListView_consistent (s : Session) (convID : String)
    (listOk loadOk : Bool) (hc : Consistent s) :
    Consistent (showConversationListView s convID listOk loadOk) := by
  unfold showConversationListView
  cases s.store.GetConversations listOk with
  | none => exact hc
  | some convs =>
    by_cases hm : convID ∈ convs
    · simpa [hm] using onSelect_consistent s convID loadOk hc
    · simpa [hm] using hc

/-- C2, as stated, fails: "hi" is submitted under "default", the user switches
to "B" while the completion runs, and the completion then appends its
assistant turn to the history of "B". -/
theorem stale_completion_reaches_history :
    (step (RunUI storeWithB) (.submitted "hi" true 10)).activeConversationID = "default"
    ∧ switchedWhileWaiting.activeConversationID = "B"
    ∧ switchedWhileWaiting.pending = ["hi"]
    ∧ switchedWhileWaiting.conversationHistory = [⟨"user", "yo", []⟩]
    ∧ resolvedAfterSwitch.conversationHistory
        = [⟨"user", "yo", []⟩, ⟨"assistant", "Hello", []⟩]
    ∧ resolvedAfterSwitch.conversationHistory ≠ switchedWhileWaiting.conversationHistory := by
  decide

/-- C2, amended: when a completion is dispatched by a submission and the
conversation `convB` is loaded before it resolves, the completion appends its
assistant turn (reply or error text) at the end of the history of the now
active `convB`; the append does not look at any conversation id. -/
theorem completion_appends_after_switch (s s2 : Session) (message convB : String)
    (d1 d2 : Bool) (n1 n2 : Nat) (ex : Exchange) (createdAt : String)
    (hm : message ≠ "")
    (hs2 : s2 = onSelect (submit s message d1 n1) convB true) :
    s2.activeConversationID = convB
    ∧ s2.pending.get? s.pending.length = some message
    ∧ (completion s2 s.pending.length ex createdAt d2 n2).conversationHistory
        = s2.conversationHistory ++ [⟨"assistant",
            apiResponse (GenerateChatCompletion ⟨"llama3.2", s2.conversationHistory, true⟩
              ex createdAt), []⟩] := by
  have hp : s2.pending = s.pending ++ [message] := by
    rw [hs2, onSelect_eq, submit_eq s message d1 n1 hm]
  have hi : s.pending.length < s2.pending.length := by simp [hp]
  refine ⟨?_, ?_, ?_⟩
  · rw [hs2, onSelect_eq]
  · rw [hp]
    simp
  · rw [completion_eq s2 _ ex createdAt d2 n2 hi]

theorem completion_appends_after_switch_witness :
    (completion (onSelect (submit (RunUI storeWithB) "hi" true 10) "B" true)
        (RunUI storeWithB).pending.length helloBody "now" true 20).conversationHistory
      = [⟨"user", "yo", []⟩, ⟨"assistant", "Hello", []⟩] :=
  (completion_appends_after_switch (RunUI storeWithB)
    (onSelect (submit (RunUI storeWithB) "hi" true 10) "B" true) "hi" "B"
    true true 10 20 helloBody "now" (by decide) rfl).2.2

/-- C3, as stated, fails: in the same run the assistant turn is stored under
"B", the conversation active when the completion resolves, and the record of
"default", under which it was dispatched, does not receive it. -/
theorem stale_completion_stored_under_new_id :
    (step (RunUI storeWithB) (.submitted "hi" true 10)).activeConversationID = "default"
    ∧ persistedTurns switchedWhileWaiting.store "default" = [("user", "hi")]
    ∧ persistedTurns resolvedAfterSwitch.store "default" = [("user", "hi")]
    ∧ persistedTurns switchedWhileWaiting.store "B" = [("user", "yo")]
    ∧ persistedTurns resolvedAfterSwitch.store "B"
        = [("user", "yo"), ("assistant", "Hello")] := by
  decide

/-- C3, amended: when a completion is dispatched by a submission and the
conversation `convB` is loaded before it resolves, a successful store call
puts the assistant turn last in the record of `convB`, the conversation active
when the completion resolves, and changes the record of no other conversation. -/
theorem completion_stored_under_active_id (s s2 s3 : Session) (message convB : String)
    (d1 : Bool) (n1 n2 : Nat) (ex : Exchange) (createdAt : String)
    (hm : message ≠ "")
    (hs2 : s2 = onSelect (submit s message d1 n1) convB true)
    (hs3 : s3 = completion s2 s.pending.length ex createdAt true n2) :
    ∀ conv : String,
      persistedTurns s3.store conv
        = persistedTurns s2.store conv ++
            if convB = conv then
              [("assistant",
                apiResponse (GenerateChatCompletion
                  ⟨"llama3.2", s2.conversationHistory, true⟩ ex createdAt))]
            else [] := by
  intro conv
  have hp : s2.pending = s.pending ++ [message] := by
    rw [hs2, onSelect_eq, submit_eq s message d1 n1 hm]
  have hi : s.pending.length < s2.pending.length := by simp [hp]
  have ha : s2.activeConversationID = convB := by rw [hs2, onSelect_eq]
  rw [hs3, completion_eq s2 _ ex createdAt true n2 hi]
  simp only [persistedTurns_add, ha]

theorem completion_stored_under_active_id_witness :
    persistedTurns
        (completion (onSelect (submit (RunUI storeWithB) "hi" true 10) "B" true)
          (RunUI storeWithB).pending.length helloBody "now" true 20).store "default"
      = [("user", "hi")] :=
  completion_stored_under_active_id (RunUI storeWithB)
    (onSelect (submit (RunUI storeWithB) "hi" true 10) "B" true)
    (completion (onSelect (submit (RunUI storeWithB) "hi" true 10) "B" true)
      (RunUI storeWithB).pending.length helloBody "now" true 20)
    "hi" "B" true 10 20 helloBody "now" (by decide) rfl rfl "default"

/-- C7: in a session whose history matches the stored turns of the active
conversation, appending a turn with the store call succeeding (a user turn by
a submission, or an assistant turn by a completion) and then reloading the
same conversation id gives a history with the same ordered role/content pairs
as just before the reload, and the same active id. -/
theorem append_then_reload_roundtrip (s : Session) (message : String) (now : Nat)
    (i : Nat) (ex : Exchange) (createdAt : String)
    (hc : Consistent s) (hm : message ≠ "") :
    ((submit s message true now).conversationHistory
        = s.conversationHistory ++ [⟨"user", message, []⟩]
      ∧ turnsOfHistory (onSelect (submit s message true now)
            (submit s message true now).activeConversationID true).conversationHistory
          = turnsOfHistory (submit s message true now).conversationHistory
      ∧ (onSelect (submit s message true now)
            (submit s message true now).activeConversationID true).activeConversationID
          = (submit s message true now).activeConversationID)
    ∧ (i < s.pending.length →
        (∃ text, (completion s i ex createdAt true now).conversationHistory
          = s.conversationHistory ++ [⟨"assistant", text, []⟩])
        ∧ turnsOfHistory (onSelect (completion s i ex createdAt true now)
              (completion s i ex createdAt true now).activeConversationID
              true).conversationHistory
            = turnsOfHistory (completion s i ex createdAt true now).conversationHistory
        ∧ (onSelect (completion s i ex createdAt true now)
              (completion s i ex createdAt true now).activeConversationID
              true).activeConversationID
            = (completion s i ex createdAt true now).activeConversationID) := by
  refine ⟨⟨?_, ?_, ?_⟩, ?_⟩
  · rw [submit_eq s message true now hm]
  · rw [onSelect_turns]
    exact (submit_consistent s message now hc).symm
  · rw [onSelect_eq]
  · intro hi
    refine ⟨⟨apiResponse (GenerateChatCompletion
      ⟨"llama3.2", s.conversationHistory, true⟩ ex createdAt), ?_⟩, ?_, ?_⟩
    · rw [completion_eq s i ex createdAt true now hi]
    · rw [onSelect_turns]
      exact (completion_consistent s i ex createdAt now hc).symm
    · rw [onSelect_eq]

theorem append_then_reload_roundtrip_witness :
    turnsOfHistory (onSelect (submit (RunUI storeWithB) "hi" true 10)
        (submit (RunUI storeWithB) "hi" true 10).activeConversationID
        true).conversationHistory
      = turnsOfHistory (submit (RunUI storeWithB) "hi" true 10).conversationHistory :=
  (append_then_reload_roundtrip (RunUI storeWithB) "hi" 10 0 helloBody "now"
    (by decide) (by decide)).1.2.1

/-- C8: a completion whose `GenerateChatCompletion` call fails still yields
one assistant turn, with content "Error: " followed by the error text; it is
appended to the history and handed to `AddMessage` exactly as a reply is, so
that every resolved completion, failed or not, adds one assistant turn to the
history and, when the store call succeeds, one to the stored record. -/
theorem failed_completion_recorded (s : Session) (i : Nat) (ex : Exchange)
    (createdAt : String) (dbOk : Bool) (now : Nat) (err : ChatError)
    (hi : i < s.pending.length)
    (herr : GenerateChatCompletion ⟨"llama3.2", s.conversationHistory, true⟩ ex createdAt
      = .error err) :
    (completion s i ex createdAt dbOk now).conversationHistory
      = s.conversationHistory ++ [⟨"assistant", "Error: " ++ err.Error, []⟩]
    ∧ (completion s i ex createdAt dbOk now).store
      = orKeep s.store (s.store.AddMessage dbOk now s.activeConversationID "assistant"
          ("Error: " ++ err.Error))
    ∧ (dbOk = true →
        persistedTurns (completion s i ex createdAt dbOk now).store s.activeConversationID
          = persistedTurns s.store s.activeConversationID
              ++ [("assistant", "Error: " ++ err.Error)])
    ∧ ∀ (ex2 : Exchange) (createdAt2 : String), ∃ text : String,
        (completion s i ex2 createdAt2 dbOk now).conversationHistory
          = s.conversationHistory ++ [⟨"assistant", text, []⟩]
        ∧ (completion s i ex2 createdAt2 dbOk now).store
          = orKeep s.store (s.store.AddMessage dbOk now s.activeConversationID
              "assistant" text)
        ∧ (dbOk = true →
            persistedTurns (completion s i ex2 createdAt2 dbOk now).store
                s.activeConversationID
              = persistedTurns s.store s.activeConversationID ++ [("assistant", text)]) := by
  refine ⟨?_, ?_, ?_, ?_⟩
  · rw [completion_eq s i ex createdAt dbOk now hi, herr]
    rfl
  · rw [completion_eq s i ex createdAt dbOk now hi, herr]
    rfl
  · intro hd
    subst hd
    rw [completion_eq s i ex createdAt true now hi, herr]
    simp only [persistedTurns_add, if_true]
    rfl
  · intro ex2 createdAt2
    refine ⟨apiResponse (GenerateChatCompletion
      ⟨"llama3.2", s.conversationHistory, true⟩ ex2 createdAt2), ?_, ?_, ?_⟩
    · rw [completion_eq s i ex2 createdAt2 dbOk now hi]
    · rw [completion_eq s i ex2 createdAt2 dbOk now hi]
    · intro hd
      subst hd
      rw [completion_eq s i ex2 createdAt2 true now hi]
      simp only [persistedTurns_add, if_true]

theorem failed_completion_recorded_witness :
    (completion (submit (RunUI storeWithB) "hi" true 10) 0
        (.postFails "connection refused") "now" true 20).conversationHistory
      = [⟨"user", "hi", []⟩, ⟨"assistant", "Error: connection refused", []⟩] :=
  (failed_completion_recorded (submit (RunUI storeWithB) "hi" true 10) 0
    (.postFails "connection refused") "now" true 20 (.transport "connection refused")
    (by decide) rfl).1

end UI

/-! ## The bubble -/

namespace UI

theorem Repeat_of_nonneg (s : String) (count : Int) (h : 0 ≤ count) :
    ∃ r, Repeat s count = some r := by
  refine ⟨String.join (List.replicate count.toNat s), ?_⟩
  simp [Repeat, not_lt.mpr h]

theorem le_maxWidthLoop (lines : List String) (maxWidth : Int) :
    maxWidth ≤ maxWidthLoop maxWidth lines := by
  induction lines generalizing maxWidth with
  | nil => simp [maxWidthLoop]
  | cons line rest ih =>
    by_cases h : len line > maxWidth
    · simp only [maxWidthLoop, h, if_true]
      exact le_trans (le_of_lt h) (ih (len line))
    · simp only [maxWidthLoop, h, if_false]
      exact ih maxWidth

/-- No line is longer than the width the first loop finds. -/
theorem len_le_maxWidthLoop (lines : List String) (maxWidth : Int) :
    ∀ line ∈ lines, len line ≤ maxWidthLoop maxWidth lines := by
  induction lines generalizing maxWidth with
  | nil => simp
  | cons l rest ih =>
    intro line hline
    by_cases h : len l > maxWidth
    · simp only [maxWidthLoop, h, if_true]
      rcases List.mem_cons.mp hline with rfl | hmem
      · exact le_maxWidthLoop rest (len line)
      · exact ih (len l) line hmem
    · simp only [maxWidthLoop, h, if_false]
      rcases List.mem_cons.mp hline with rfl | hmem
      · exact le_trans (not_lt.mp h) (le_maxWidthLoop rest maxWidth)
      · exact ih maxWidth line hmem

theorem titleFormatted_le_bubbleWidth (title text : String) :
    len (titleFormatted title) ≤ bubbleWidth title text := by
  unfold bubbleWidth
  split_ifs with h
  · exact le_refl _
  · exact not_lt.mp h

theorem maxWidth_add_two_le_bubbleWidth (title text : String) :
    maxWidthLoop 0 (wrapText text 50) + 2 ≤ bubbleWidth title text := by
  unfold bubbleWidth
  split_ifs with h
  · exact le_of_lt h
  · exact le_refl _

theorem titlePadding_bounds (title text : String) :
    0 ≤ titlePadding title text
    ∧ titlePadding title text ≤ bubbleWidth title text - len (titleFormatted title) := by
  have h := titleFormatted_le_bubbleWidth title text
  have hn : 0 ≤ bubbleWidth title text - len (titleFormatted title) := by omega
  unfold titlePadding
  rw [Int.tdiv_eq_ediv hn (by decide)]
  omega

/-- The second loop returns when every padding count is non-negative. -/
theorem middleLoop_of_nonneg (color : String) (width : Int) (lines : List String)
    (middleLines : String) (h : ∀ line ∈ lines, 0 ≤ width - len line - 1) :
    ∃ r, middleLoop color width middleLines lines = some r := by
  induction lines generalizing middleLines with
  | nil => exact ⟨middleLines, rfl⟩
  | cons line rest ih =>
    obtain ⟨pad, hpad⟩ := Repeat_of_nonneg " " (width - len line - 1)
      (h line (List.mem_cons_self _ _))
    simp only [middleLoop, hpad]
    exact ih _ (fun l hl => h l (List.mem_cons_of_mem _ hl))

/-- C11: for every title, text and color, the two repeat counts of the top
border of `createBubble` are non-negative, the padding count of every line
that `wrapText text 50` returns is at least 1, and so is never negative, and
`createBubble` returns a bubble: none of its `strings.Repeat` calls panics,
whatever the text (empty, or with words longer than 50 bytes). -/
theorem createBubble_total (title text color : String) :
    0 ≤ titlePadding title text
    ∧ 0 ≤ bubbleWidth title text - len (titleFormatted title) - titlePadding title text
    ∧ (∀ line ∈ wrapText text 50, 1 ≤ bubbleWidth title text - len line - 1)
    ∧ ∃ bubble, createBubble title text color = some bubble := by
  have hpad := titlePadding_bounds title text
  have hw := maxWidth_add_two_le_bubbleWidth title text
  have ht := titleFormatted_le_bubbleWidth title text
  have hlines : ∀ line ∈ wrapText text 50, 1 ≤ bubbleWidth title text - len line - 1 := by
    intro line hline
    have := len_le_maxWidthLoop (wrapText text 50) 0 line hline
    omega
  have hright :
      0 ≤ bubbleWidth title text - len (titleFormatted title) - titlePadding title text := by
    omega
  have hbottom : 0 ≤ bubbleWidth title text := by
    have := le_maxWidthLoop (wrapText text 50) 0
    omega
  refine ⟨hpad.1, hright, hlines, ?_⟩
  obtain ⟨left, hleft⟩ := Repeat_of_nonneg "─" _ hpad.1
  obtain ⟨right, hr⟩ := Repeat_of_nonneg "─" _ hright
  obtain ⟨middleLines, hmid⟩ := middleLoop_of_nonneg color (bubbleWidth title text)
    (wrapText text 50) "" (fun line hline => by have := hlines line hline; omega)
  obtain ⟨bottom, hb⟩ := Repeat_of_nonneg "─" _ hbottom
  refine ⟨(color ++ "┌" ++ left ++ titleFormatted title ++ right ++ "┐" ++ "[white]\n")
    ++ middleLines ++ (color ++ "└" ++ bottom ++ "┘" ++ "[white]"), ?_⟩
  simp only [createBubble, hleft, hr, hmid, hb]

/-- On a text whose first word is longer than the wrap width, `wrapText`
starts with an empty line and keeps the word whole. -/
theorem wrapText_long_word :
    wrapText "aaaaaaaaaaaaaaaaaaaaaaaaaaaaaaaaaaaaaaaaaaaaaaaaaaaaaaaaaaaa b" 50
      = ["", "aaaaaaaaaaaaaaaaaaaaaaaaaaaaaaaaaaaaaaaaaaaaaaaaaaaaaaaaaaaa", "b"] := by
  decide

/-- The bubble drawn for the user turn "hi". -/
theorem createBubble_hi :
    createBubble "You" "hi" "[green]"
      = some "[green]┌ You ┐[white]\n[green]│ hi  │[white]\n[green]└─────┘[white]" := by
  decide

end UI

/-! ## The session, statement by statement -/

namespace UI

open Ollama Sqlite

/-- The reply text does not depend on the messages of the request. -/
theorem apiResponse_request (h : List ChatMessage) (ex : Exchange) (createdAt : String) :
    apiResponse (GenerateChatCompletion ⟨"llama3.2", h, true⟩ ex createdAt)
      = replyText ex createdAt :=
  apiResponse_messages h [] ex createdAt

/-- The two statements of a goroutine run back to back are `completion`. -/
theorem completion_eq_statements (s : Session) (i : Nat) (ex : Exchange)
    (createdAt : String) (dbOk : Bool) (now : Nat) (hi : i < s.pending.length) :
    completionStore (completionAppend ⟨s, []⟩ i ex createdAt) 0 dbOk now
      = ⟨completion s i ex createdAt dbOk now, []⟩ := by
  simp [completionStore, completionAppend, completion, hi]

theorem exec_append (r : Running) (xs ys : List Action) :
    exec r (xs ++ ys) = exec (exec r xs) ys := by
  induction xs generalizing r with
  | nil => rfl
  | cons a as ih => exact ih (act r a)

/-- C9, as stated, fails: "one" and "two" are submitted in this order, the
goroutine of "two" appends its assistant turn first and the goroutine of "one"
second, but the goroutine of "one" makes its store call first.  The history
holds the assistant turn of "two" before that of "one", the stored record
holds them the other way round. -/
theorem stores_out_of_order :
    turnsOfHistory (exec (boot ⟨[], 0⟩)
        [.submitted "one" true 1, .submitted "two" true 2,
         .appended 1 helloBody "t", .appended 0 (.postFails "refused") "u",
         .stored 1 true 3, .stored 0 true 4]).session.conversationHistory
      = [("user", "one"), ("user", "two"), ("assistant", "Hello"),
         ("assistant", "Error: refused")]
    ∧ persistedTurns (exec (boot ⟨[], 0⟩)
        [.submitted "one" true 1, .submitted "two" true 2,
         .appended 1 helloBody "t", .appended 0 (.postFails "refused") "u",
         .stored 1 true 3, .stored 0 true 4]).session.store "default"
      = [("user", "one"), ("user", "two"), ("assistant", "Error: refused"),
         ("assistant", "Hello")]
    ∧ (exec (boot ⟨[], 0⟩)
        [.submitted "one" true 1, .submitted "two" true 2,
         .appended 1 helloBody "t", .appended 0 (.postFails "refused") "u",
         .stored 1 true 3, .stored 0 true 4]).session.activeConversationID = "default"
    ∧ (exec (boot ⟨[], 0⟩)
        [.submitted "one" true 1, .submitted "two" true 2,
         .appended 1 helloBody "t", .appended 0 (.postFails "refused") "u",
         .stored 1 true 3, .stored 0 true 4]).unsaved = [] := by
  decide

/-- C9, amended: for two completions dispatched in the order turn1, turn2
under one conversation that stays active, with the goroutine of turn2
appending to the history before that of turn1, the history holds the
assistant turn of turn2 before that of turn1, and the stored record holds the
two assistant turns in the order of the two store calls: turn2 first when the
goroutine of turn2 stores first (whether before or after the append of
turn1), turn1 first when the goroutine of turn1 stores first. -/
theorem completion_order_by_statement (s : Session) (m1 m2 : String)
    (n1 n2 n3 n4 : Nat) (ex1 ex2 : Exchange) (c1 c2 : String)
    (hm1 : m1 ≠ "") (hm2 : m2 ≠ "") :
    (turnsOfHistory (exec ⟨s, []⟩
        [.submitted m1 true n1, .submitted m2 true n2,
         .appended (s.pending.length + 1) ex2 c2, .stored 0 true n3,
         .appended s.pending.length ex1 c1, .stored 0 true n4]).session.conversationHistory
      = turnsOfHistory s.conversationHistory ++
          [("user", m1), ("user", m2), ("assistant", replyText ex2 c2),
           ("assistant", replyText ex1 c1)]
     ∧ persistedTurns (exec ⟨s, []⟩
        [.submitted m1 true n1, .submitted m2 true n2,
         .appended (s.pending.length + 1) ex2 c2, .stored 0 true n3,
         .appended s.pending.length ex1 c1, .stored 0 true n4]).session.store
          s.activeConversationID
      = persistedTurns s.store s.activeConversationID ++
          [("user", m1), ("user", m2), ("assistant", replyText ex2 c2),
           ("assistant", replyText ex1 c1)])
    ∧ (turnsOfHistory (exec ⟨s, []⟩
        [.submitted m1 true n1, .submitted m2 true n2,
         .appended (s.pending.length + 1) ex2 c2, .appended s.pending.length ex1 c1,
         .stored 0 true n3, .stored 0 true n4]).session.conversationHistory
      = turnsOfHistory s.conversationHistory ++
          [("user", m1), ("user", m2), ("assistant", replyText ex2 c2),
           ("assistant", replyText ex1 c1)]
     ∧ persistedTurns (exec ⟨s, []⟩
        [.submitted m1 true n1, .submitted m2 true n2,
         .appended (s.pending.length + 1) ex2 c2, .appended s.pending.length ex1 c1,
         .stored 0 true n3, .stored 0 true n4]).session.store s.activeConversationID
      = persistedTurns s.store s.activeConversationID ++
          [("user", m1), ("user", m2), ("assistant", replyText ex2 c2),
           ("assistant", replyText ex1 c1)])
    ∧ (turnsOfHistory (exec ⟨s, []⟩
        [.submitted m1 true n1, .submitted m2 true n2,
         .appended (s.pending.length + 1) ex2 c2, .appended s.pending.length ex1 c1,
         .stored 1 true n3, .stored 0 true n4]).session.conversationHistory
      = turnsOfHistory s.conversationHistory ++
          [("user", m1), ("user", m2), ("assistant", replyText ex2 c2),
           ("assistant", replyText ex1 c1)]
     ∧ persistedTurns (exec ⟨s, []⟩
        [.submitted m1 true n1, .submitted m2 true n2,
         .appended (s.pending.length + 1) ex2 c2, .appended s.pending.length ex1 c1,
         .stored 1 true n3, .stored 0 true n4]).session.store s.activeConversationID
      = persistedTurns s.store s.activeConversationID ++
          [("user", m1), ("user", m2), ("assistant", replyText ex1 c1),
           ("assistant", replyText ex2 c2)]) := by
  refine ⟨⟨?_, ?_⟩, ⟨?_, ?_⟩, ⟨?_, ?_⟩⟩ <;>
    simp [exec, act, submit, completionAppend, completionStore, hm1, hm2, turnsOfHistory,
      apiResponse_request, persistedTurns_add, List.eraseIdx_append_of_length_le]

theorem completion_order_by_statement_witness :
    persistedTurns (exec ⟨RunUI storeWithDefault, []⟩
        [.submitted "one" true 1, .submitted "two" true 2,
         .appended ((RunUI storeWithDefault).pending.length + 1) helloBody "t",
         .appended (RunUI storeWithDefault).pending.length (.postFails "refused") "u",
         .stored 1 true 3, .stored 0 true 4]).session.store
        (RunUI storeWithDefault).activeConversationID
      = [("user", "old"), ("user", "one"), ("user", "two"),
         ("assistant", "Error: refused"), ("assistant", "Hello")] :=
  (completion_order_by_statement (RunUI storeWithDefault) "one" "two" 1 2 3 4
    (.postFails "refused") helloBody "u" "t" (by decide) (by decide)).2.2.2

theorem settled_iff_consistent (r : Running) (hu : r.unsaved = []) :
    Settled r ↔ Consistent r.session := by
  simp [Settled, Consistent, hu]

theorem boot_settled (store : Storage)
    (hstore : ∀ m ∈ store.rows, m.ConversationID ≠ "default") : Settled (boot store) := by
  have hf : store.rows.filter (fun m => m.ConversationID = "default") = [] := by
    rw [List.filter_eq_nil_iff]
    intro m hm
    simpa using hstore m hm
  simp [Settled, boot, RunUI, turnsOfHistory, persistedTurns,
    Storage.GetMessagesForConversation, hf]

/-- A switch that is carried out while no appended turn awaits its store call
brings history and database together, whatever the state before. -/
theorem switched_settled (r : Running) (convID : String) (convs : List String)
    (hu : r.unsaved = [])
    (hl : r.session.store.GetConversations true = some convs) (hm : convID ∈ convs) :
    Settled (act r (.switched convID true true)) := by
  have hs : showConversationListView r.session convID true true
      = onSelect r.session convID true := by
    simp [showConversationListView, hl, hm]
  rw [settled_iff_consistent _ (by simpa [act] using hu)]
  simp only [act, hs]
  unfold Consistent
  rw [onSelect_turns]
  simp [onSelect_eq]

theorem act_settled (r : Running) (a : Action) (hs : Settled r)
    (hk : a.keeps r = true) : Settled (act r a) := by
  cases a with
  | submitted message dbOk now =>
    simp only [Action.keeps, Bool.and_eq_true, List.isEmpty_iff] at hk
    obtain ⟨hd, hu⟩ := hk
    subst hd
    rw [settled_iff_consistent _ (by simpa [act] using hu)]
    exact submit_consistent r.session message now ((settled_iff_consistent r hu).mp hs)
  | appended i ex createdAt =>
    by_cases hi : i < r.session.pending.length
    · unfold Settled at hs ⊢
      simp only [act, completionAppend, hi, if_true]
      simp only [turnsOfHistory] at hs ⊢
      simp [hs]
    · simpa [act, completionAppend, hi] using hs
  | stored j dbOk now =>
    simp only [Action.keeps, Bool.and_eq_true, beq_iff_eq] at hk
    obtain ⟨hd, hj⟩ := hk
    subst hd
    subst hj
    cases hu : r.unsaved with
    | nil => simpa [act, completionStore, hu] using hs
    | cons text rest =>
      unfold Settled at hs ⊢
      simp only [act, completionStore, hu, List.get?_cons_zero, List.eraseIdx_cons_zero,
        persistedTurns_add, if_true]
      rw [hs, hu]
      simp
  | switched convID listOk loadOk =>
    simp only [Action.keeps, List.isEmpty_iff] at hk
    rw [settled_iff_consistent _ (by simpa [act] using hk)]
    exact showConversationListView_consistent r.session convID listOk loadOk
      ((settled_iff_consistent r hk).mp hs)
  | deleted index listOk deleteOk =>
    simp [Action.keeps] at hk

theorem exec_settled (acts : List Action) (r : Running) (hs : Settled r)
    (hc : calm r acts = true) : Settled (exec r acts) := by
  induction acts generalizing r with
  | nil => exact hs
  | cons a as ih =>
    simp only [calm, Bool.and_eq_true] at hc
    exact ih (act r a) (act_settled r a hs hc.1) hc.2

/-- C10, as stated, fails, with every database call succeeding and no appended
turn awaiting its store call: at start over a database that holds a turn of
"default"; after a delete from the CRUD view; when the user reloads the
conversation between the append and the store call of a completion; when the
user submits between the two; and when two completions store in the order
opposite to that of their appends. -/
theorem history_not_always_the_record :
    ((boot storeWithDefault).unsaved = [] ∧ ¬ Consistent (boot storeWithDefault).session)
    ∧ (deletedFirstTurn.unsaved = [] ∧ ¬ Consistent deletedFirstTurn.session)
    ∧ (switchedBetween.unsaved = []
        ∧ turnsOfHistory switchedBetween.session.conversationHistory
            = [("user", "hi"), ("user", "probe")]
        ∧ persistedTurns switchedBetween.session.store
              switchedBetween.session.activeConversationID
            = [("user", "hi"), ("assistant", "Hello"), ("user", "probe")]
        ∧ ¬ Consistent switchedBetween.session)
    ∧ (submittedBetween.unsaved = []
        ∧ turnsOfHistory submittedBetween.session.conversationHistory
            = [("user", "hi"), ("assistant", "Hello"), ("user", "probe")]
        ∧ persistedTurns submittedBetween.session.store
              submittedBetween.session.activeConversationID
            = [("user", "hi"), ("user", "probe"), ("assistant", "Hello")]
        ∧ ¬ Consistent submittedBetween.session)
    ∧ (storedInOtherOrder.unsaved = []
        ∧ turnsOfHistory storedInOtherOrder.session.conversationHistory
            = [("user", "one"), ("user", "two"), ("assistant", "Hello"),
               ("assistant", "Error: refused")]
        ∧ persistedTurns storedInOtherOrder.session.store
              storedInOtherOrder.session.activeConversationID
            = [("user", "one"), ("user", "two"), ("assistant", "Error: refused"),
               ("assistant", "Hello")]
        ∧ ¬ Consistent storedInOtherOrder.session) := by
  decide

/-- C10, amended: history and stored record of the active conversation agree,
up to the assistant turns appended and not stored yet, at process start over
a database without turns of "default" and right after any conversation switch
carried out while no appended turn awaits its store call, whatever ran before
(deletes included); and they keep agreeing through every later schedule made
of submissions and switches that run while no appended turn awaits its store
call, appends of completions, and store calls made in the order of the
appends, the database calls succeeding.  When no appended turn awaits its
store call, the history is exactly the stored record. -/
theorem session_settled (store : Storage) (pre post : List Action)
    (hsync : (pre = [] ∧ ∀ m ∈ store.rows, m.ConversationID ≠ "default")
      ∨ ∃ (before : List Action) (convID : String) (convs : List String),
          pre = before ++ [Action.switched convID true true]
          ∧ (exec (boot store) before).unsaved = []
          ∧ (exec (boot store) before).session.store.GetConversations true = some convs
          ∧ convID ∈ convs)
    (hcalm : calm (exec (boot store) pre) post = true) :
    Settled (exec (boot store) (pre ++ post))
    ∧ ((exec (boot store) (pre ++ post)).unsaved = [] →
        Consistent (exec (boot store) (pre ++ post)).session) := by
  have hpre : Settled (exec (boot store) pre) := by
    rcases hsync with ⟨hnil, hstore⟩ | ⟨before, convID, convs, hp, hu, hl, hm⟩
    · rw [hnil]
      exact boot_settled store hstore
    · rw [hp, exec_append]
      exact switched_settled _ convID convs hu hl hm
  have hall : Settled (exec (boot store) (pre ++ post)) := by
    rw [exec_append]
    exact exec_settled post _ hpre hcalm
  exact ⟨hall, fun hu => (settled_iff_consistent _ hu).mp hall⟩

theorem session_settled_witness :
    Consistent (exec (boot storeWithDefault)
      ([.submitted "hi" true 10, .appended 0 helloBody "now", .stored 0 true 20,
        .deleted 0 true true, .switched "default" true true]
       ++ [.submitted "probe" true 30, .submitted "again" true 40,
           .appended 1 helloBody "last", .appended 0 (.postFails "refused") "later",
           .stored 0 true 50, .stored 0 true 60])).session :=
  (session_settled storeWithDefault
    [.submitted "hi" true 10, .appended 0 helloBody "now", .stored 0 true 20,
     .deleted 0 true true, .switched "default" true true]
    [.submitted "probe" true 30, .submitted "again" true 40,
     .appended 1 helloBody "last", .appended 0 (.postFails "refused") "later",
     .stored 0 true 50, .stored 0 true 60]
    (Or.inr ⟨[.submitted "hi" true 10, .appended 0 helloBody "now", .stored 0 true 20,
        .deleted 0 true true], "default", ["default"], rfl, by decide, by decide,
        by decide⟩)
    (by decide)).2 (by decide)

end UI
